import Mathlib

/-!
Verification of core control-loop components of the Traffic Control CDN
repository, as shallow embeddings in Lean 4.

Components embedded here (file names refer to the Go sources):
* `traffic_monitor/poller/cache.go` — `diffConfigs` and its data types.
* `traffic_monitor/poller/monitorconfig.go` — the size-1 "latest config"
  channel discipline of `writeConfig`.
* `tc-health-client/tmagent/tmagent.go` — `ParentStatus`, `markParent`,
  the per-parent poll update of `PollAndUpdateCacheStatus`, and
  `readHostStatus`.
* `cache-config/t3c-apply/torequest/torequest.go` — `StartServices`,
  `UpdateTrafficOps`, `CheckReloadRestart`.
* the `t3c-check-reload` subtool — its stdin/stdout decision procedure.
* `infrastructure/cdn-in-a-box/enroller/enroller.go` — the enroll
  handlers' create-collision handling and the directory watcher's
  empty-file retry discipline.

Go strings are modelled as `List Char` so that every string operation is
structurally recursive and kernel-computable; Go machine integers that
only ever hold non-negative counts are modelled as `Nat`.
-/

/-! ## Go string primitives (strings.HasPrefix / HasSuffix / Contains /
Split / TrimSpace), modelled on `List Char` -/

/-- The character-list representation of a Go string. -/
abbrev Str := List Char

/-- Conversion from a Lean string literal to the model representation. -/
def strOf (s : String) : Str := s.data

/-- Go `strings.HasPrefix(s, pre)`. -/
def goHasPfx (s pre : Str) : Bool := pre.isPrefixOf s

/-- Go `strings.HasSuffix(s, suf)`. -/
def goHasSfx (s suf : Str) : Bool := suf.isSuffixOf s

/-- Go `strings.Contains(s, sub)`. -/
def goContains (s sub : Str) : Bool :=
  match s with
  | [] => sub.isEmpty
  | _ :: rest => sub.isPrefixOf s || goContains rest sub

/-- Fuel-driven worker for `goSplit`; the fuel is an upper bound on the
number of characters still to be consumed, so it never runs out when
initialised with `s.length + 1`. -/
def goSplitAux (sep : Str) : Nat → Str → Str → List Str
  | 0, s, cur => [cur.reverse ++ s]
  | _ + 1, [], cur => [cur.reverse]
  | fuel + 1, c :: rest, cur =>
    if sep ≠ [] ∧ sep.isPrefixOf (c :: rest) then
      cur.reverse :: goSplitAux sep fuel ((c :: rest).drop sep.length) []
    else
      goSplitAux sep fuel rest (c :: cur)

/-- Go `strings.Split(s, sep)` for a non-empty separator: splits around
every occurrence of `sep`, keeping empty fields. -/
def goSplit (s sep : Str) : List Str := goSplitAux sep (s.length + 1) s []

/-- Go `strings.TrimSpace(s)` (ASCII whitespace suffices for the inputs
handled here). -/
def goTrimSpace (s : Str) : Str :=
  ((s.dropWhile Char.isWhitespace).reverse.dropWhile Char.isWhitespace).reverse

/-! ## traffic_monitor/poller/monitorconfig.go — the size-1 config channel

`MonitorConfigPoller.ConfigChannel` is a Go channel with buffer size 1.
Its state is `none` (empty buffer) or `some cfg` (one buffered value).
`writeConfig` loops over a two-armed `select`: send the new config if the
buffer has room, otherwise receive (and discard) the stale buffered value
and try again.  The payload type is irrelevant to the channel mechanics,
so it is a type parameter. -/

/-- One iteration of the `select` loop inside `writeConfig`: returns the
channel state after the iteration and whether the function returned
(the send arm succeeded). -/
def writeConfigStep {α : Type} (chan : Option α) (cfg : α) : Option α × Bool :=
  match chan with
  | none => (some cfg, true)
  | some _ => (none, false)

/-- The `for { select { … } }` loop of `writeConfig`, run with the given
amount of fuel.  Returns `some finalChannelState` if the loop terminated
within the fuel, `none` otherwise. -/
def writeConfigRun {α : Type} (fuel : Nat) (chan : Option α) (cfg : α) :
    Option (Option α) :=
  match fuel with
  | 0 => none
  | fuel + 1 =>
    match writeConfigStep chan cfg with
    | (chan', true) => some chan'
    | (chan', false) => writeConfigRun fuel chan' cfg

/-! ## traffic_monitor/poller/cache.go — `diffConfigs`

The Go `map[string]PollConfig` is modelled as an association list (the
claims about `diffConfigs` are membership statements, which are
iteration-order independent); Go map indexing is `lookupAL`. -/

/-- `config.PollingProtocol` of the traffic monitor. -/
inductive PollingProtocol where
  | ipv4Only
  | ipv6Only
  | both
deriving DecidableEq, Repr

/-- `poller.PollConfig`: one probe's configuration.  `Timeout` is a
`time.Duration`, i.e. an integer nanosecond count. -/
structure PollConfig where
  url : Str
  urlv6 : Str
  host : Str
  timeout : Int
  format : Str
  pollType : Str
deriving DecidableEq, Repr

/-- `poller.CachePollerConfig`. -/
structure CachePollerConfig where
  urls : List (Str × PollConfig)
  interval : Int
  noKeepAlive : Bool
  pollingProtocol : PollingProtocol
deriving DecidableEq, Repr

/-- `poller.CachePollInfo`: the data a new probe is started with. -/
structure CachePollInfo where
  noKeepAlive : Bool
  interval : Int
  id : Str
  pollingProtocol : PollingProtocol
  pollConfig : PollConfig
deriving DecidableEq, Repr

/-- Go map indexing `m[k]` over the association-list model. -/
def lookupAL {α β : Type} [DecidableEq α] (l : List (α × β)) (k : α) : Option β :=
  match l with
  | [] => none
  | (k', v) :: rest => if k' = k then some v else lookupAL rest k

/-- The `CachePollInfo` that `diffConfigs` builds for id `id` with probe
config `pc`, taking the global fields from the new config. -/
def cachePollInfoOf (new : CachePollerConfig) (id : Str) (pc : PollConfig) :
    CachePollInfo :=
  { noKeepAlive := new.noKeepAlive
    interval := new.interval
    id := id
    pollingProtocol := new.pollingProtocol
    pollConfig := pc }

/-- `diffConfigs(old, new)`: deleted probe IDs and new polls to start.
If a global field (interval, keep-alive) changed, everything is deleted
and everything new is added.  Otherwise the first loop over the old set
emits deletions (absent or changed IDs, a changed ID also being re-added),
and the second loop over the new set appends additions for IDs absent
from the old set. -/
def diffConfigs (old new : CachePollerConfig) : List Str × List CachePollInfo :=
  if old.interval ≠ new.interval ∨ old.noKeepAlive ≠ new.noKeepAlive then
    (old.urls.map Prod.fst, new.urls.map fun p => cachePollInfoOf new p.1 p.2)
  else
    let deletions := old.urls.filterMap fun p =>
      match lookupAL new.urls p.1 with
      | none => some p.1
      | some npc => if npc ≠ p.2 then some p.1 else none
    let changedAdds := old.urls.filterMap fun p =>
      match lookupAL new.urls p.1 with
      | none => none
      | some npc => if npc ≠ p.2 then some (cachePollInfoOf new p.1 npc) else none
    let freshAdds := new.urls.filterMap fun p =>
      match lookupAL old.urls p.1 with
      | none => some (cachePollInfoOf new p.1 p.2)
      | some _ => none
    (deletions, changedAdds ++ freshAdds)

/-! ## tc-health-client/tmagent/tmagent.go — parent availability

`ParentStatus` carries the three HostStatus reason bits plus the
hysteresis counters.  The Go poll counters are `int`s that are only ever
incremented from zero or reset to zero, so they are `Nat` here, as are
the configured thresholds. -/

/-- `tmagent.ParentStatus`. -/
structure ParentStatus where
  fqdn : Str
  activeReason : Bool
  localReason : Bool
  manualReason : Bool
  lastTmPoll : Int
  unavailablePollCount : Nat
  markUpPollCount : Nat
deriving DecidableEq, Repr

/-- `ParentStatus.available(reasonCode)`: the reason bit selected by the
configured reason code; `false` for an unrecognized code (Go's zero value
of the local `rc`). -/
def ParentStatus.available (p : ParentStatus) (reasonCode : Str) : Bool :=
  if reasonCode = strOf "active" then p.activeReason
  else if reasonCode = strOf "local" then p.localReason
  else if reasonCode = strOf "manual" then p.manualReason
  else false

/-- `ParentStatus.Status()`: `"UP"` iff every reason bit is true. -/
def ParentStatus.status (p : ParentStatus) : Str :=
  if !p.activeReason then strOf "DOWN"
  else if !p.localReason then strOf "DOWN"
  else if !p.manualReason then strOf "DOWN"
  else strOf "UP"

/-- The fields of `tc-health-client` configuration that drive the parent
markdown logic. -/
structure HealthClientCfg where
  reasonCode : Str
  unavailablePollThreshold : Nat
  markUpPollThreshold : Nat
  enableActiveMarkdowns : Bool
deriving Repr

/-- The in-memory `Parents` table (`map[string]ParentStatus`), modelled
functionally. -/
def ParentsMap : Type := Str → Option ParentStatus

/-- Go map assignment `m[k] = v`. -/
def ParentsMap.insert (m : ParentsMap) (k : Str) (v : ParentStatus) : ParentsMap :=
  fun k' => if k' = k then some v else m k'

/-- Whether `net.ParseIP` accepts the string: a dotted-quad IPv4 literal
(four decimal fields, each ≤ 255 with no leading zero) or an IPv6
literal (always contains a colon). -/
def goIsIP (s : Str) : Bool :=
  let fields := goSplit s (strOf ".")
  let v4Field := fun (f : Str) =>
    f ≠ [] ∧ f.length ≤ 3 ∧ (∀ c ∈ f, c.isDigit) ∧
      (f.length > 1 → f.headI ≠ '0') ∧
      (f.foldl (fun n c => n * 10 + (c.toNat - 48)) 0) ≤ 255
  (fields.length = 4 ∧ ∀ f ∈ fields, v4Field f) ∨ goContains s (strOf ":")

/-- `tmagent.parseFqdn`: the map key for a parent — the first label of a
host name, or the whole string if it is an IP address. -/
def parseFqdn (fqdn : Str) : Str :=
  if goIsIP fqdn then fqdn else (goSplit fqdn (strOf ".")).headI

/-- A `traffic_ctl host {up|down}` invocation performed by
`execTrafficCtl`. -/
inductive CtlMark where
  | down (fqdn : Str)
  | up (fqdn : Str)
deriving DecidableEq, Repr

/-- Result of one `markParent` call: the updated table, the CLI
invocation it performed (if any), and whether it returned an error
(a failed `execTrafficCtl`). -/
structure MarkParentResult where
  parents : ParentsMap
  ctl : Option CtlMark
  isErr : Bool

/-- `tmagent.markParent(fqdn, cacheStatus, available)`.  `ctlOk` models
whether the `traffic_ctl` subprocess succeeds.  On the unavailable side
the incremented `unavailablePollCount` is compared against
`UnavailablePollThreshold`; the CLI is only invoked once the threshold is
reached, and a successful invocation resets both counters.  The
symmetric logic applies on the available side.  The reason-bit switch at
the end only updates the `active` and `local` bits (the Go switch has no
`manual` case). -/
def markParent (cfg : HealthClientCfg) (parents : ParentsMap) (fqdn : Str)
    (available : Bool) (ctlOk : Bool) : MarkParentResult :=
  let hostName := parseFqdn fqdn
  match parents hostName with
  | none => ⟨parents, none, false⟩
  | some pv =>
    let st :=
      if !available then
        let u := pv.unavailablePollCount + 1
        if u < cfg.unavailablePollThreshold then
          -- threshold not reached: host stays (nominally) available
          (true, u, pv.markUpPollCount, none, false)
        else if ctlOk then
          (false, 0, 0, some (CtlMark.down fqdn), false)
        else
          (false, pv.unavailablePollCount, pv.markUpPollCount,
            some (CtlMark.down fqdn), true)
      else
        let m := pv.markUpPollCount + 1
        if m < cfg.markUpPollThreshold then
          (false, pv.unavailablePollCount, m, none, false)
        else if ctlOk then
          (true, 0, 0, some (CtlMark.up fqdn), false)
        else
          (true, pv.unavailablePollCount, pv.markUpPollCount,
            some (CtlMark.up fqdn), true)
    match st with
    | (hostAvailable, u, m, ctl, isErr) =>
      if isErr then
        -- the `if err == nil` guard: a failed CLI call leaves the table unchanged
        ⟨parents, ctl, true⟩
      else
        let pv' := { pv with
          activeReason :=
            if cfg.reasonCode = strOf "active" then hostAvailable else pv.activeReason
          localReason :=
            if cfg.reasonCode = strOf "local" then hostAvailable else pv.localReason
          unavailablePollCount := u
          markUpPollCount := m }
        ⟨parents.insert hostName pv', ctl, false⟩

/-- One parent's worth of the `for k, v := range caches` loop body in
`PollAndUpdateCacheStatus`: update `LastTmPoll`, call `markParent` when
the monitor's opinion differs from the selected reason bit (suppressed
when active markdowns are disabled and the opinion is "unavailable"),
then clear `unavailablePollCount` when an agreeing "available" opinion
arrives while the parent is up. -/
def pollParentStep (cfg : HealthClientCfg) (parents : ParentsMap)
    (hostName : Str) (tmAvailable : Bool) (now : Int) (ctlOk : Bool) :
    ParentsMap × Option CtlMark :=
  match parents hostName with
  | none => (parents, none)
  | some cs0 =>
    let cs := { cs0 with lastTmPoll := now }
    let parents := parents.insert hostName cs
    let afterMark :=
      if cs.available cfg.reasonCode ≠ tmAvailable then
        if !cfg.enableActiveMarkdowns ∧ !tmAvailable then
          (parents, (none : Option CtlMark))
        else
          let r := markParent cfg parents cs.fqdn tmAvailable ctlOk
          (r.parents, r.ctl)
      else
        (parents, none)
    if cs.available cfg.reasonCode ∧ tmAvailable ∧ cs.unavailablePollCount > 0 then
      (afterMark.1.insert hostName { cs with unavailablePollCount := 0 }, afterMark.2)
    else
      afterMark

/-- A single monitor poll as seen by one parent: the monitor's opinion,
the poll time, and whether a `traffic_ctl` invocation (if any) succeeds. -/
structure PollInput where
  tmAvailable : Bool
  now : Int
  ctlOk : Bool
deriving Repr

/-- Fold a sequence of polls for one parent over the table, collecting
every mark-down CLI invocation that occurred. -/
def runPolls (cfg : HealthClientCfg) (hostName : Str) :
    ParentsMap → List PollInput → ParentsMap × Nat
  | parents, [] => (parents, 0)
  | parents, i :: rest =>
    let (parents', ctl) := pollParentStep cfg parents hostName i.tmAvailable i.now i.ctlOk
    let (pf, d) := runPolls cfg hostName parents' rest
    (pf, (match ctl with | some (CtlMark.down _) => 1 | _ => 0) + d)

/-- The longest run of consecutive `false` ("unavailable") entries in a
sequence of monitor opinions; `cur` and `best` accumulate the run ending
at the current position and the best run seen so far. -/
def maxUnavailRunAux (cur best : Nat) : List Bool → Nat
  | [] => best
  | b :: rest =>
    if b then maxUnavailRunAux 0 best rest
    else maxUnavailRunAux (cur + 1) (Nat.max best (cur + 1)) rest

/-- The length of the longest block of consecutive "unavailable" monitor
reports with no intervening "available" report. -/
def maxUnavailRun (polls : List PollInput) : Nat :=
  maxUnavailRunAux 0 0 (polls.map PollInput.tmAvailable)

/-! ## tmagent.readHostStatus — parsing `traffic_ctl` host status output

The reason variables (`activeReason`, `localReason`, `manualReason`) are
declared outside the line loop in the Go source, so their values carry
over to the next line whenever a field is missing or matches neither the
`UP` nor the `DOWN` marker; the parser state threads them through the
fold. -/

/-- The insertion/update step of `readHostStatus` for one parsed
`ParentStatus` record (the tail of the line loop): a new host is added;
for a known host the freshly parsed record replaces the stored one only
when the availability under the configured reason code changed, carrying
over `LastTmPoll` and both poll counters; otherwise the stored entry is
left untouched. -/
def hostStatusUpdate (rc : Str) (parents : ParentsMap) (pstat : ParentStatus) :
    ParentsMap :=
  let hostName := parseFqdn pstat.fqdn
  match parents hostName with
  | none => parents.insert hostName pstat
  | some pv =>
    if pv.available rc ≠ pstat.available rc then
      parents.insert hostName
        { pstat with
          lastTmPoll := pv.lastTmPoll
          unavailablePollCount := pv.unavailablePollCount
          markUpPollCount := pv.markUpPollCount }
    else
      parents

/-- One line of the `readHostStatus` scanner loop.  The parser state is
the `(activeReason, localReason, manualReason)` triple carried between
lines. -/
def readHostStatusLine (rc : Str) (st : Bool × Bool × Bool) (parents : ParentsMap)
    (line : Str) : (Bool × Bool × Bool) × ParentsMap :=
  let fields := goSplit (goTrimSpace line) (strOf " ")
  if fields.length = 2 then
    let fqdnField := goSplit fields.headI (strOf "proxy.process.host_status.")
    -- ATS v9 output carries the stat prefix; v10 output is the bare FQDN
    let fqdn := if fqdnField.length = 2 then fqdnField.getD 1 [] else fqdnField.headI
    let statField := goSplit (fields.getD 1 []) (strOf ",")
    let a :=
      if statField.length = 5 then
        if goHasPfx (statField.getD 1 []) (strOf "ACTIVE:UP") then true
        else if goHasPfx (statField.getD 1 []) (strOf "ACTIVE:DOWN") then false
        else st.1
      else st.1
    let l :=
      if statField.length = 5 then
        if goHasPfx (statField.getD 2 []) (strOf "LOCAL:UP") then true
        else if goHasPfx (statField.getD 2 []) (strOf "LOCAL:DOWN") then false
        else st.2.1
      else st.2.1
    let m :=
      if statField.length = 5 then
        if goHasPfx (statField.getD 3 []) (strOf "MANUAL:UP") then true
        else if goHasPfx (statField.getD 3 []) (strOf "MANUAL:DOWN") then false
        else st.2.2
      else st.2.2
    let pstat : ParentStatus :=
      { fqdn := fqdn
        activeReason := a
        localReason := l
        manualReason := m
        lastTmPoll := 0
        unavailablePollCount := 0
        markUpPollCount := 0 }
    ((a, l, m), hostStatusUpdate rc parents pstat)
  else
    (st, parents)

/-- `readHostStatus` over the whole `traffic_ctl` output (given as the
list of its lines), starting from the Go zero values of the reason
variables. -/
def readHostStatus (rc : Str) (parents : ParentsMap) (lines : List Str) : ParentsMap :=
  (lines.foldl (fun acc line => readHostStatusLine rc acc.1 acc.2 line)
    ((false, false, false), parents)).2

/-! ## cache-config/t3c-apply — `StartServices`, `UpdateTrafficOps`

`t3cutil.ServiceNeeds`, the `--files` and `--service-action` flags, and
`torequest.UpdateStatus` are enumerations.  The `checkReload` wrapper in
the agent execs the `t3c-check-reload` subtool (whose decision procedure
is embedded below from its own source) over the changed-files list and
adopts its verdict; the exec glue itself is not part of the sources, so
following the spec it is modelled as a direct call of the subtool's
decision. -/

/-- `t3cutil.ServiceNeeds`. -/
inductive ServiceNeeds where
  | needsNothing
  | needsRestart
  | needsReload
deriving DecidableEq, Repr

/-- `t3cutil.ApplyFilesFlag` (`--files`). -/
inductive ApplyFilesFlag where
  | all
  | reval
deriving DecidableEq, Repr

/-- `t3cutil.ApplyServiceActionFlag` (`--service-action`). -/
inductive ApplyServiceActionFlag where
  | flagNone
  | flagReload
  | flagRestart
deriving DecidableEq, Repr

/-- `torequest.UpdateStatus`. -/
inductive UpdateStatus where
  | notNeeded
  | needed
  | successful
  | failed
deriving DecidableEq, Repr

/-- `t3c-check-reload`'s `configFilesRequiringRestart`. -/
def configFilesRequiringRestart : List Str :=
  [strOf "plugin.config", strOf "50-ats.rules"]

/-- The changed-files preprocessing of `t3c-check-reload`: split the
`changed_files` JSON field on commas, trim whitespace, drop empties
(`StrMap(·, TrimSpace)` then `StrRemoveIf(·, StrIsEmpty)`). -/
def checkReloadChangedFiles (changedFiles : Str) : List Str :=
  (((goSplit changedFiles (strOf ",")).map goTrimSpace).filter fun s => s ≠ [])

/-- The decision procedure of `t3c-check-reload`'s `main`: restart when
some changed path ends in `plugin.config` or `50-ats.rules`; otherwise
reload when some changed path contains `ssl_multicert.config`,
`/trafficserver/`, `hdr_rw_`, `url_sig_`, `uri_signing_`,
`plugin.config` or `50-ats.rules`; otherwise nothing. -/
def checkReloadDecide (changedConfigFiles : List Str) : ServiceNeeds :=
  if configFilesRequiringRestart.any fun f =>
      changedConfigFiles.any fun p => goHasSfx p f then
    ServiceNeeds.needsRestart
  else if changedConfigFiles.any fun p =>
      goContains p (strOf "ssl_multicert.config") ||
      goContains p (strOf "/trafficserver/") ||
      (goContains p (strOf "hdr_rw_") ||
        goContains p (strOf "url_sig_") ||
        goContains p (strOf "uri_signing_") ||
        goContains p (strOf "plugin.config") ||
        goContains p (strOf "50-ats.rules")) then
    ServiceNeeds.needsReload
  else
    ServiceNeeds.needsNothing

/-- Modelled from the spec: `t3cutil.ServiceNeeds.String()` is not among
the sources; per the spec the reload-check subtool's sentinels are
`needs-restart`, `needs-reload` and `nothing`. -/
def serviceNeedsString : ServiceNeeds → Str
  | ServiceNeeds.needsRestart => strOf "needs-restart"
  | ServiceNeeds.needsReload => strOf "needs-reload"
  | ServiceNeeds.needsNothing => strOf "nothing"

/-- What `t3c-check-reload`'s `main` writes to standard output for a
given `changed_files` field: `ExitRestart` and `ExitReload` print the
corresponding sentinel followed by a newline, while `ExitNothing` exits
without printing anything (`none`). -/
def checkReloadMainStdout (changedFiles : Str) : Option Str :=
  match checkReloadDecide (checkReloadChangedFiles changedFiles) with
  | ServiceNeeds.needsRestart =>
    some (serviceNeedsString ServiceNeeds.needsRestart ++ strOf "\n")
  | ServiceNeeds.needsReload =>
    some (serviceNeedsString ServiceNeeds.needsReload ++ strOf "\n")
  | ServiceNeeds.needsNothing => none

/-- `torequest.RestartData`. -/
structure RestartData where
  trafficCtlReload : Bool
  sysCtlReload : Bool
  ntpdRestart : Bool
  teakdRestart : Bool
  trafficServerRestart : Bool
  remapConfigReload : Bool
deriving DecidableEq, Repr

/-- `torequest.FileRestartData`. -/
structure FileRestartData where
  name : Str
  restartData : RestartData
deriving DecidableEq, Repr

/-- `TrafficOpsReq.CheckReloadRestart`: fold the per-file restart data
of every replaced file into the aggregate, field by field with `||`. -/
def checkReloadRestart (data : List FileRestartData) : RestartData :=
  data.foldl
    (fun rd f =>
      { trafficCtlReload := rd.trafficCtlReload || f.restartData.trafficCtlReload
        sysCtlReload := rd.sysCtlReload || f.restartData.sysCtlReload
        ntpdRestart := rd.ntpdRestart || f.restartData.ntpdRestart
        teakdRestart := rd.teakdRestart || f.restartData.teakdRestart
        trafficServerRestart :=
          rd.trafficServerRestart || f.restartData.trafficServerRestart
        remapConfigReload := rd.remapConfigReload || f.restartData.remapConfigReload })
    ⟨false, false, false, false, false, false⟩

/-- The `t3c-apply` configuration fields `StartServices` and
`UpdateTrafficOps` read. -/
structure T3cApplyCfg where
  files : ApplyFilesFlag
  serviceAction : ApplyServiceActionFlag
  reportOnly : Bool
  noUnsetUpdateFlag : Bool
deriving Repr

/-- The per-invocation agent state `StartServices` reads: the list of
config files actually replaced on disk this run, and the aggregated
reload triggers (`r.TrafficCtlReload` from changed files,
`r.RemapConfigReload` from changed files or the maxmind refresh). -/
structure AgentRunState where
  changedFiles : List Str
  trafficCtlReload : Bool
  remapConfigReload : Bool
deriving Repr

/-- The environment `StartServices` interacts with: whether the
`trafficserver` package is installed, whether `GetServiceStatus`
succeeds and reports the service running, and whether the
`traffic_ctl config reload` and `service trafficserver {restart|start}`
subprocesses succeed. -/
structure StartServicesEnv where
  tsInstalled : Bool
  svcStatusOk : Bool
  svcRunning : Bool
  ctlReloadOk : Bool
  serviceStartOk : Bool
deriving Repr

/-- An ATS transition performed by `StartServices`. -/
inductive AtsTransition where
  | configReload
  | svcRestart
  | svcStart
deriving DecidableEq, Repr

/-- Result of `StartServices`: the final `UpdateStatus`, the ATS
transitions performed (in order), and whether an error was returned. -/
structure StartServicesResult where
  status : UpdateStatus
  transitions : List AtsTransition
  isErr : Bool
deriving DecidableEq, Repr

/-- The `if *syncdsUpdate == UpdateTropsNeeded { *syncdsUpdate =
UpdateTropsSuccessful }` statement. -/
def bumpNeeded (u : UpdateStatus) : UpdateStatus :=
  if u = UpdateStatus.needed then UpdateStatus.successful else u

/-- `TrafficOpsReq.StartServices`. -/
def startServices (cfg : T3cApplyCfg) (r : AgentRunState) (env : StartServicesEnv)
    (syncdsUpdate : UpdateStatus) : StartServicesResult :=
  let serviceNeeds :=
    if cfg.serviceAction = ApplyServiceActionFlag.flagRestart then
      ServiceNeeds.needsRestart
    else
      checkReloadDecide r.changedFiles
  -- internal knowledge of modified files forces at least a reload
  let serviceNeeds :=
    if serviceNeeds ≠ ServiceNeeds.needsRestart ∧
        serviceNeeds ≠ ServiceNeeds.needsReload ∧
        (r.trafficCtlReload ∨ r.remapConfigReload) then
      ServiceNeeds.needsReload
    else serviceNeeds
  if (serviceNeeds = ServiceNeeds.needsRestart ∨
      serviceNeeds = ServiceNeeds.needsReload) ∧ ¬env.tsInstalled then
    ⟨syncdsUpdate, [], true⟩
  else if ¬env.svcStatusOk then
    ⟨syncdsUpdate, [], true⟩
  else if cfg.reportOnly then
    ⟨syncdsUpdate, [], false⟩
  else if cfg.serviceAction = ApplyServiceActionFlag.flagRestart then
    let t := if env.svcRunning then AtsTransition.svcRestart else AtsTransition.svcStart
    if ¬env.serviceStartOk then
      ⟨syncdsUpdate, [t], true⟩
    else
      ⟨bumpNeeded syncdsUpdate, [t], false⟩
  else if cfg.serviceAction = ApplyServiceActionFlag.flagReload then
    if serviceNeeds = ServiceNeeds.needsRestart then
      ⟨bumpNeeded (bumpNeeded syncdsUpdate), [], false⟩
    else if serviceNeeds = ServiceNeeds.needsReload then
      if ¬env.ctlReloadOk then
        ⟨(if syncdsUpdate = UpdateStatus.needed then UpdateStatus.failed
            else syncdsUpdate),
          [AtsTransition.configReload], true⟩
      else
        ⟨bumpNeeded (bumpNeeded syncdsUpdate), [AtsTransition.configReload], false⟩
    else
      ⟨bumpNeeded syncdsUpdate, [], false⟩
  else
    ⟨syncdsUpdate, [], false⟩

/-- The server update status fetched by `getUpdateStatus`
(`t3c-request --get-data=update-status`). -/
structure ServerUpdateStatus where
  updatePending : Bool
  revalPending : Bool
  configUpdateTime : Int
  revalidateUpdateTime : Int
deriving Repr

/-- A call of `sendUpdate` clearing the pending flag in Traffic Ops,
carrying the previously observed update time. -/
inductive OpsClearCall where
  | clearConfigUpdate (t : Int)
  | clearRevalUpdate (t : Int)
deriving DecidableEq, Repr

/-- `TrafficOpsReq.UpdateTrafficOps` (with `getUpdateStatus` succeeding
and returning `serverStatus`): the Ops call it performs, if any. -/
def updateTrafficOps (cfg : T3cApplyCfg) (serverStatus : ServerUpdateStatus)
    (syncdsUpdate : UpdateStatus) : Option OpsClearCall :=
  let performUpdate :=
    if syncdsUpdate = UpdateStatus.notNeeded ∧
        (serverStatus.updatePending ∨ serverStatus.revalPending) then true
    else if syncdsUpdate = UpdateStatus.notNeeded then false
    else if syncdsUpdate = UpdateStatus.failed then false
    else if syncdsUpdate = UpdateStatus.successful then true
    else false
  if ¬performUpdate then none
  else if cfg.reportOnly then none
  else if ¬cfg.reportOnly ∧ ¬cfg.noUnsetUpdateFlag then
    match cfg.files with
    | ApplyFilesFlag.all =>
      some (OpsClearCall.clearConfigUpdate serverStatus.configUpdateTime)
    | ApplyFilesFlag.reval =>
      some (OpsClearCall.clearRevalUpdate serverStatus.revalidateUpdateTime)
  else none

/-! ## infrastructure/cdn-in-a-box/enroller — create-collision handling

An Ops create call returns an alerts list and possibly an error.  The
enroll handlers differ in how they inspect the alerts on error:
`enrollType` (like most handlers) treats an error-level alert whose text
contains "already exists" as success-with-skip, `enrollCDN` accepts any
alert whose text contains "already exists", and `enrollServer` performs
no collision check at all and always propagates the error. -/

/-- One element of the `alerts` array of a Traffic Ops response
envelope. -/
structure Alert where
  level : Str
  text : Str
deriving DecidableEq, Repr

/-- Outcome of one Ops create call as seen by an enroll handler. -/
structure CreateResult where
  isErr : Bool
  alerts : List Alert
deriving Repr

/-- The error handling of `enrollType` after `CreateType` (decoding
having succeeded): `true` means the handler returns `nil`. -/
def enrollTypeOk (res : CreateResult) : Bool :=
  if res.isErr then
    res.alerts.any fun alert =>
      alert.level = strOf "error" ∧ goContains alert.text (strOf "already exists")
  else true

/-- The error handling of `enrollCDN` after `CreateCDN`: the collision
check does not require the error level. -/
def enrollCDNOk (res : CreateResult) : Bool :=
  if res.isErr then
    res.alerts.any fun alert => goContains alert.text (strOf "already exists")
  else true

/-- The error handling of `enrollServer` after `CreateServer`: there is
no collision check; any create error is propagated. -/
def enrollServerOk (res : CreateResult) : Bool :=
  if res.isErr then false else true

/-- Modelled from the spec: the Traffic Ops create endpoint (the Ops
implementation is not among the sources).  Ops holds the set of already
created entity names; creating an existing name fails with an
error-level alert whose text contains "already exists", otherwise the
entity is stored. -/
def opsCreate (existing : List Str) (name : Str) : List Str × CreateResult :=
  if name ∈ existing then
    (existing,
      ⟨true, [⟨strOf "error", name ++ strOf " already exists"⟩]⟩)
  else
    (name :: existing, ⟨false, []⟩)

/-- Submitting one Type document named `name` to Ops through
`enrollType`: the updated Ops state and whether the handler returned
`nil`. -/
def submitType (existing : List Str) (name : Str) : List Str × Bool :=
  let r := opsCreate existing name
  (r.1, enrollTypeOk r.2)

/-! ## infrastructure/cdn-in-a-box/enroller — the directory watcher's
empty-file discipline

On an `io.EOF` from a handler the watcher strips the `(\.retry)*$`
suffix to recover the original name, bumps that name's empty count, and
either renames the file with a further `.retry` suffix (count still
below ten) or lets it fall through to the `.rejected` rename. -/

/-- The `emptyCount` map (missing keys read as zero, which matches the
explicit zero-initialisation in the source). -/
def EmptyCounts : Type := Str → Nat

/-- `maxEmptyTries`. -/
def maxEmptyTries : Nat := 10

/-- Fuel-driven worker for `originalNameOf`; one unit of fuel per
stripped `.retry` suffix (each stripping removes six characters, so
`s.length` fuel is always enough). -/
def stripRetryAux : Nat → Str → Str
  | 0, s => s
  | fuel + 1, s =>
    if goHasSfx s (strOf ".retry") ∧ s ≠ [] then
      stripRetryAux fuel (s.take (s.length - 6))
    else s

/-- The original name of a watched file: the regex replacement
`(\.retry)*$` → `""`, i.e. every trailing `.retry` suffix removed. -/
def originalNameOf (s : Str) : Str := stripRetryAux s.length s

/-- What the watcher does with a file after its handler ran. -/
inductive WatchOutcome where
  | renamedRetry (newName : Str)
  | renamedRejected (newName : Str)
  | renamedProcessed (newName : Str)
deriving DecidableEq, Repr

/-- Result of one handler invocation, as seen by the watcher loop. -/
inductive HandlerResult where
  | ok
  | eofErr
  | otherErr
deriving DecidableEq, Repr

/-- The tail of the watcher's Create-event handling, from the handler
invocation's result to the rename: an `io.EOF` bumps the original
name's empty count and renames to `.retry` while the count is below
`maxEmptyTries`, otherwise it falls through to the error path whose
suffix is `.rejected`; a handler error also yields `.rejected`; success
yields `.processed`. -/
def dirWatcherHandleResult (counts : EmptyCounts) (name : Str)
    (res : HandlerResult) : EmptyCounts × WatchOutcome :=
  match res with
  | HandlerResult.eofErr =>
    let originalName := originalNameOf name
    let c := counts originalName + 1
    let counts' : EmptyCounts := fun k => if k = originalName then c else counts k
    if c < maxEmptyTries then
      (counts', WatchOutcome.renamedRetry (name ++ strOf ".retry"))
    else
      (counts', WatchOutcome.renamedRejected (name ++ strOf ".rejected"))
  | HandlerResult.otherErr =>
    (counts, WatchOutcome.renamedRejected (name ++ strOf ".rejected"))
  | HandlerResult.ok =>
    (counts, WatchOutcome.renamedProcessed (name ++ strOf ".processed"))

/-! ## Concrete sample data (scenario S2 of the spec) -/

/-- The first S2 line of `traffic_ctl` output. -/
def s2line1 : Str := strOf "proxy.process.host_status.cdn-cache-01.example HOST_STATUS_DOWN,ACTIVE:UP:0:0,LOCAL:UP:0:0,MANUAL:DOWN:1556896844:0,SELF_DETECT:UP:0"

/-- The second S2 line of `traffic_ctl` output. -/
def s2line2 : Str := strOf "proxy.process.host_status.cdn-cache-02.example HOST_STATUS_UP,ACTIVE:UP:0:0,LOCAL:UP:0:0,MANUAL:UP:0:0,SELF_DETECT:UP:0"

/-- An empty `Parents` table. -/
def emptyParents : ParentsMap := fun _ => none

/-! ## Helper lemmas -/

theorem ParentsMap.insert_self (m : ParentsMap) (k : Str) (v : ParentStatus) :
    (m.insert k v) k = some v := by
  simp [ParentsMap.insert]

theorem ParentsMap.insert_ne (m : ParentsMap) (k k' : Str) (v : ParentStatus)
    (h : k' ≠ k) : (m.insert k v) k' = m k' := by
  simp [ParentsMap.insert, h]

theorem goContains_append_right (a b sub : Str) (h : goContains b sub = true) :
    goContains (a ++ b) sub = true := by
  induction a with
  | nil => simpa using h
  | cons c rest ih =>
    simp only [List.cons_append, goContains, Bool.or_eq_true]
    exact Or.inr ih

/-! ## Claim theorems -/

/-- C9: `writeConfig` on the monitor poller's size-1 config channel
never blocks: from every channel state (empty, or holding one stale
config) the loop terminates within two iterations, and afterwards the
channel holds exactly the written config — a full buffer's stale config
is drained and discarded, never queued. -/
theorem writeConfig_overwrites_and_terminates (α : Type) (chan : Option α) (cfg : α) :
    writeConfigRun 2 chan cfg = some (some cfg) := by
  cases chan <;> rfl

/-- C5: on changed files matching the restart set the subtool prints the
needs-restart sentinel, on reload-matching files the needs-reload
sentinel, but in the remaining case it prints no sentinel at all
(`ExitNothing` writes nothing to stdout), contrary to the claim's third
arm. -/
theorem checkReload_nothing_prints_no_sentinel :
    checkReloadMainStdout (strOf "/opt/trafficserver/etc/trafficserver/plugin.config") =
      some (strOf "needs-restart\n") ∧
    checkReloadMainStdout (strOf "/opt/trafficserver/etc/trafficserver/remap.config") =
      some (strOf "needs-reload\n") ∧
    checkReloadMainStdout (strOf "foo.txt") = none := by
  refine ⟨by decide, by decide, by decide⟩

/-- C1 counterexample: invoked with `--service-action=restart` (and not
report-only), the agent restarts ATS even though no config file was
changed in the invocation and neither reload trigger is set. -/
theorem startServices_restart_despite_no_changes :
    (startServices
      ⟨ApplyFilesFlag.all, ApplyServiceActionFlag.flagRestart, false, false⟩
      ⟨[], false, false⟩
      ⟨true, true, true, true, true⟩
      UpdateStatus.needed).transitions = [AtsTransition.svcRestart] := by
  decide

/-- C1 (amended): for `ServiceAction ∈ {none, reload}` — or whenever
`ReportOnly` is set — the agent performs no ATS transition unless a
config file was changed in this invocation or a reload trigger
(`TrafficCtlReload` from changed files, `RemapConfigReload` from changed
files or the maxmind refresh) is set; and the aggregation of an empty
replaced-file list indeed yields no triggers. -/
theorem no_transition_without_changes (cfg : T3cApplyCfg) (r : AgentRunState)
    (env : StartServicesEnv) (u : UpdateStatus)
    (hact : cfg.serviceAction ≠ ApplyServiceActionFlag.flagRestart ∨ cfg.reportOnly = true)
    (hcf : r.changedFiles = []) (hctl : r.trafficCtlReload = false)
    (hremap : r.remapConfigReload = false) :
    (startServices cfg r env u).transitions = [] ∧
    (checkReloadRestart []).trafficCtlReload = false ∧
    (checkReloadRestart []).remapConfigReload = false := by
  refine ⟨?_, rfl, rfl⟩
  have hdecide : checkReloadDecide r.changedFiles = ServiceNeeds.needsNothing := by
    rw [hcf]; rfl
  rcases hact with hact | hact
  · simp only [startServices, hdecide, hctl, hremap]
    rcases cfg with ⟨files, action, reportOnly, nounset⟩
    cases action <;> simp_all <;> split_ifs <;> rfl
  · simp only [startServices, hdecide, hctl, hremap, hact]
    split_ifs <;> rfl

/-- Closed witness for the amended C1 theorem. -/
theorem no_transition_without_changes_witness :
    (startServices
      ⟨ApplyFilesFlag.all, ApplyServiceActionFlag.flagReload, false, false⟩
      ⟨[], false, false⟩
      ⟨true, true, true, true, true⟩
      UpdateStatus.needed).transitions = [] ∧
    (checkReloadRestart []).trafficCtlReload = false ∧
    (checkReloadRestart []).remapConfigReload = false :=
  no_transition_without_changes
    ⟨ApplyFilesFlag.all, ApplyServiceActionFlag.flagReload, false, false⟩
    ⟨[], false, false⟩
    ⟨true, true, true, true, true⟩
    UpdateStatus.needed
    (Or.inl (by decide)) rfl rfl rfl

/-- C4: when the agent performs a reload transition and
`traffic_ctl config reload` fails, the update status becomes `failed`
(and `StartServices` returns an error), and `UpdateTrafficOps` with a
`failed` status returns without calling Ops to clear the pending flag. -/
theorem reload_failure_not_reported (cfg : T3cApplyCfg) (r : AgentRunState)
    (env : StartServicesEnv) (serverStatus : ServerUpdateStatus)
    (hact : cfg.serviceAction = ApplyServiceActionFlag.flagReload)
    (hro : cfg.reportOnly = false)
    (hts : env.tsInstalled = true) (hsvc : env.svcStatusOk = true)
    (hctl : env.ctlReloadOk = false)
    (hneeds : checkReloadDecide r.changedFiles = ServiceNeeds.needsReload) :
    (startServices cfg r env UpdateStatus.needed).status = UpdateStatus.failed ∧
    (startServices cfg r env UpdateStatus.needed).transitions =
      [AtsTransition.configReload] ∧
    (startServices cfg r env UpdateStatus.needed).isErr = true ∧
    updateTrafficOps cfg serverStatus
      (startServices cfg r env UpdateStatus.needed).status = none := by
  have hstart :
      startServices cfg r env UpdateStatus.needed =
        ⟨UpdateStatus.failed, [AtsTransition.configReload], true⟩ := by
    simp [startServices, hact, hro, hts, hsvc, hctl, hneeds]
  refine ⟨by rw [hstart], by rw [hstart], by rw [hstart], ?_⟩
  rw [hstart]
  simp [updateTrafficOps]

/-- Closed witness for the C4 theorem. -/
theorem reload_failure_not_reported_witness :
    (startServices
      ⟨ApplyFilesFlag.all, ApplyServiceActionFlag.flagReload, false, false⟩
      ⟨[strOf "/opt/trafficserver/etc/trafficserver/records.config"], true, false⟩
      ⟨true, true, true, false, true⟩
      UpdateStatus.needed).status = UpdateStatus.failed ∧
    (startServices
      ⟨ApplyFilesFlag.all, ApplyServiceActionFlag.flagReload, false, false⟩
      ⟨[strOf "/opt/trafficserver/etc/trafficserver/records.config"], true, false⟩
      ⟨true, true, true, false, true⟩
      UpdateStatus.needed).transitions = [AtsTransition.configReload] ∧
    (startServices
      ⟨ApplyFilesFlag.all, ApplyServiceActionFlag.flagReload, false, false⟩
      ⟨[strOf "/opt/trafficserver/etc/trafficserver/records.config"], true, false⟩
      ⟨true, true, true, false, true⟩
      UpdateStatus.needed).isErr = true ∧
    updateTrafficOps
      ⟨ApplyFilesFlag.all, ApplyServiceActionFlag.flagReload, false, false⟩
      ⟨true, false, 0, 0⟩
      (startServices
        ⟨ApplyFilesFlag.all, ApplyServiceActionFlag.flagReload, false, false⟩
        ⟨[strOf "/opt/trafficserver/etc/trafficserver/records.config"], true, false⟩
        ⟨true, true, true, false, true⟩
        UpdateStatus.needed).status = none :=
  reload_failure_not_reported
    ⟨ApplyFilesFlag.all, ApplyServiceActionFlag.flagReload, false, false⟩
    ⟨[strOf "/opt/trafficserver/etc/trafficserver/records.config"], true, false⟩
    ⟨true, true, true, false, true⟩
    ⟨true, false, 0, 0⟩
    rfl rfl rfl rfl rfl (by decide)

/-- C7 counterexample: `enrollServer` performs no "already exists"
check; on a create error carrying an error-level "already exists" alert
it returns the error rather than success. -/
theorem enrollServer_collision_is_error :
    enrollServerOk
      ⟨true, [⟨strOf "error",
        strOf "a server with this hostname already exists"⟩]⟩ = false := by
  decide

/-- C7 (amended): the enroll handlers that implement the collision check
treat an "already exists" create failure as success-with-skip —
`enrollType` requires an error-level alert, `enrollCDN` any alert — and
submitting the same Type document twice through `enrollType` leaves
exactly one upstream entity with the second submission returning `nil`;
`enrollServer` (and the other server-related handlers) propagate the
error instead. -/
theorem enroll_collision_success_with_skip :
    (∀ res : CreateResult, res.isErr = true →
      (∃ a ∈ res.alerts,
        a.level = strOf "error" ∧ goContains a.text (strOf "already exists") = true) →
      enrollTypeOk res = true) ∧
    (∀ res : CreateResult, res.isErr = true →
      (∃ a ∈ res.alerts, goContains a.text (strOf "already exists") = true) →
      enrollCDNOk res = true) ∧
    (∀ (existing : List Str) (name : Str), name ∉ existing →
      (submitType existing name).2 = true ∧
      (submitType (submitType existing name).1 name).2 = true ∧
      (submitType (submitType existing name).1 name).1.count name = 1) := by
  refine ⟨?_, ?_, ?_⟩
  · intro res herr ⟨a, ha, hlvl, htxt⟩
    simp only [enrollTypeOk, herr, if_true, List.any_eq_true]
    exact ⟨a, ha, by simp [hlvl, htxt]⟩
  · intro res herr ⟨a, ha, htxt⟩
    simp only [enrollCDNOk, herr, if_true, List.any_eq_true]
    exact ⟨a, ha, htxt⟩
  · intro existing name hnot
    have h1 : submitType existing name = (name :: existing, true) := by
      simp [submitType, opsCreate, hnot, enrollTypeOk]
    have hmem : name ∈ name :: existing := List.mem_cons_self name existing
    have htext : goContains (name ++ strOf " already exists")
        (strOf "already exists") = true :=
      goContains_append_right name (strOf " already exists")
        (strOf "already exists") (by decide)
    have h2 :
        submitType (name :: existing) name =
          (name :: existing,
            enrollTypeOk ⟨true,
              [⟨strOf "error", name ++ strOf " already exists"⟩]⟩) := by
      simp [submitType, opsCreate, hmem]
    have h3 :
        enrollTypeOk ⟨true, [⟨strOf "error", name ++ strOf " already exists"⟩]⟩ =
          true := by
      simp [enrollTypeOk, List.any_eq_true]
      exact htext
    rw [h1]
    refine ⟨rfl, by rw [h2, h3], ?_⟩
    rw [h2]
    simp only [List.count_cons_self]
    have : existing.count name = 0 := List.count_eq_zero.mpr hnot
    omega

/-- Closed witness for the amended C7 theorem. -/
theorem enroll_collision_success_with_skip_witness :
    (submitType [] (strOf "RASCAL")).2 = true ∧
    (submitType (submitType [] (strOf "RASCAL")).1 (strOf "RASCAL")).2 = true ∧
    (submitType (submitType [] (strOf "RASCAL")).1 (strOf "RASCAL")).1.count
      (strOf "RASCAL") = 1 :=
  enroll_collision_success_with_skip.2.2 [] (strOf "RASCAL") (by decide)

theorem stripRetryAux_fuel_irrelevant :
    ∀ (fuel n : Nat) (s : Str), s.length ≤ 6 * fuel → s.length ≤ 6 * n →
      stripRetryAux fuel s = stripRetryAux n s := by
  intro fuel
  induction fuel with
  | zero =>
    intro n s hs _
    have hnil : s = [] := by
      cases s with
      | nil => rfl
      | cons a t => simp at hs
    subst hnil
    cases n with
    | zero => rfl
    | succ m => simp [stripRetryAux]
  | succ f ih =>
    intro n s hs hn
    cases n with
    | zero =>
      have hnil : s = [] := by
        cases s with
        | nil => rfl
        | cons a t => simp at hn
      subst hnil
      simp [stripRetryAux]
    | succ m =>
      rw [stripRetryAux, stripRetryAux]
      split_ifs with h
      · have hsfx : (strOf ".retry") <:+ s := List.isSuffixOf_iff_suffix.mp h.1
        have hlen : 6 ≤ s.length := by
          have := hsfx.length_le
          simpa using this
        have htk : (s.take (s.length - 6)).length = s.length - 6 := by
          simp [List.length_take]
        apply ih
        · rw [htk]; omega
        · rw [htk]; omega
      · rfl

theorem originalNameOf_retry (name : Str) :
    originalNameOf (name ++ strOf ".retry") = originalNameOf name := by
  unfold originalNameOf
  have hlen : (name ++ strOf ".retry").length = name.length + 6 := by
    simp [strOf]
  have hsfx : goHasSfx (name ++ strOf ".retry") (strOf ".retry") = true := by
    rw [goHasSfx, List.isSuffixOf_iff_suffix]
    exact List.suffix_append name (strOf ".retry")
  have hne : ¬(name ++ strOf ".retry" = []) := by simp [strOf]
  rw [hlen, show name.length + 6 = (name.length + 5) + 1 from rfl, stripRetryAux,
    if_pos ⟨hsfx, hne⟩, hlen,
    show name.length + 6 - 6 = name.length from by omega, List.take_left]
  apply stripRetryAux_fuel_irrelevant <;> omega

/-- C8: on an empty (EOF) observation the watcher renames the file by
appending `.retry` while the per-original-name empty count (after the
increment) is below ten, renames it with `.rejected` once the count
reaches ten, and never renames it to `.processed`; a `.retry` suffix
does not change the original name the count is keyed by. -/
theorem empty_file_retry_then_reject :
    (∀ (counts : EmptyCounts) (name : Str),
      counts (originalNameOf name) + 1 < maxEmptyTries →
      (dirWatcherHandleResult counts name HandlerResult.eofErr).1
          (originalNameOf name) = counts (originalNameOf name) + 1 ∧
      (dirWatcherHandleResult counts name HandlerResult.eofErr).2 =
        WatchOutcome.renamedRetry (name ++ strOf ".retry")) ∧
    (∀ (counts : EmptyCounts) (name : Str),
      maxEmptyTries ≤ counts (originalNameOf name) + 1 →
      (dirWatcherHandleResult counts name HandlerResult.eofErr).1
          (originalNameOf name) = counts (originalNameOf name) + 1 ∧
      (dirWatcherHandleResult counts name HandlerResult.eofErr).2 =
        WatchOutcome.renamedRejected (name ++ strOf ".rejected")) ∧
    (∀ (counts : EmptyCounts) (name nn : Str),
      (dirWatcherHandleResult counts name HandlerResult.eofErr).2 ≠
        WatchOutcome.renamedProcessed nn) ∧
    (∀ name : Str, originalNameOf (name ++ strOf ".retry") = originalNameOf name) := by
  refine ⟨?_, ?_, ?_, originalNameOf_retry⟩
  · intro counts name h
    simp [dirWatcherHandleResult, h]
  · intro counts name h
    have h' : ¬(counts (originalNameOf name) + 1 < maxEmptyTries) := by omega
    simp [dirWatcherHandleResult, h']
  · intro counts name nn
    simp only [dirWatcherHandleResult]
    split_ifs <;> simp

/-- Closed witness for the C8 theorem. -/
theorem empty_file_retry_then_reject_witness :
    (dirWatcherHandleResult (fun _ => 0) (strOf "host.json")
        HandlerResult.eofErr).1 (originalNameOf (strOf "host.json")) = 0 + 1 ∧
    (dirWatcherHandleResult (fun _ => 0) (strOf "host.json")
        HandlerResult.eofErr).2 =
      WatchOutcome.renamedRetry (strOf "host.json" ++ strOf ".retry") :=
  empty_file_retry_then_reject.1 (fun _ => 0) (strOf "host.json") (by decide)

theorem lookupAL_eq_some_iff {α β : Type} [DecidableEq α] {l : List (α × β)}
    (hnd : (l.map Prod.fst).Nodup) (k : α) (v : β) :
    lookupAL l k = some v ↔ (k, v) ∈ l := by
  induction l with
  | nil => simp [lookupAL]
  | cons p rest ih =>
    obtain ⟨k', v'⟩ := p
    simp only [List.map_cons, List.nodup_cons] at hnd
    by_cases hk : k' = k
    · subst hk
      simp only [lookupAL, if_pos rfl, List.mem_cons]
      constructor
      · rintro h
        injection h with h
        subst h
        exact Or.inl rfl
      · rintro (h | h)
        · injection h with h1 h2
          simp [h2]
        · exact absurd (List.mem_map_of_mem Prod.fst h) hnd.1
      
    · simp only [lookupAL, if_neg hk, List.mem_cons]
      rw [ih hnd.2]
      constructor
      · exact fun h => Or.inr h
      · rintro (h | h)
        · injection h with h1 h2
          exact absurd h1.symm hk
        · exact h

/-- C3: `diffConfigs` — global-field changes force full teardown and
rebuild; otherwise deletions are exactly the old IDs absent from the new
set or with a differing probe, additions exactly the new probes absent
from the old set or differing from it, an unchanged ID appears in
neither list, and probe equality is field-by-field equality. -/
theorem diffConfigs_spec (old new : CachePollerConfig)
    (hold : (old.urls.map Prod.fst).Nodup) (hnew : (new.urls.map Prod.fst).Nodup) :
    ((old.interval ≠ new.interval ∨ old.noKeepAlive ≠ new.noKeepAlive) →
      diffConfigs old new =
        (old.urls.map Prod.fst, new.urls.map fun p => cachePollInfoOf new p.1 p.2)) ∧
    (old.interval = new.interval → old.noKeepAlive = new.noKeepAlive →
      ((∀ id, id ∈ (diffConfigs old new).1 ↔
          ∃ opc, lookupAL old.urls id = some opc ∧
            (lookupAL new.urls id = none ∨
              ∃ npc, lookupAL new.urls id = some npc ∧ npc ≠ opc)) ∧
       (∀ info, info ∈ (diffConfigs old new).2 ↔
          ∃ id npc, lookupAL new.urls id = some npc ∧
            info = cachePollInfoOf new id npc ∧
            (lookupAL old.urls id = none ∨
              ∃ opc, lookupAL old.urls id = some opc ∧ npc ≠ opc)) ∧
       (∀ id pc, lookupAL old.urls id = some pc → lookupAL new.urls id = some pc →
          id ∉ (diffConfigs old new).1 ∧
          ∀ info ∈ (diffConfigs old new).2, info.id ≠ id))) ∧
    (∀ a b : PollConfig, a = b ↔
      (a.url = b.url ∧ a.urlv6 = b.urlv6 ∧ a.host = b.host ∧
        a.timeout = b.timeout ∧ a.format = b.format ∧ a.pollType = b.pollType)) := by
  refine ⟨?_, ?_, ?_⟩
  · intro h
    rw [diffConfigs, if_pos h]
  · intro h1 h2
    have hcond : ¬(old.interval ≠ new.interval ∨ old.noKeepAlive ≠ new.noKeepAlive) := by
      simp [h1, h2]
    have hEq : diffConfigs old new =
        (old.urls.filterMap fun p =>
            match lookupAL new.urls p.1 with
            | none => some p.1
            | some npc => if npc ≠ p.2 then some p.1 else none,
          (old.urls.filterMap fun p =>
            match lookupAL new.urls p.1 with
            | none => none
            | some npc => if npc ≠ p.2 then some (cachePollInfoOf new p.1 npc) else none) ++
          new.urls.filterMap fun p =>
            match lookupAL old.urls p.1 with
            | none => some (cachePollInfoOf new p.1 p.2)
            | some _ => none) := by
      rw [diffConfigs, if_neg hcond]
    have hdel : ∀ id, id ∈ (diffConfigs old new).1 ↔
        ∃ opc, lookupAL old.urls id = some opc ∧
          (lookupAL new.urls id = none ∨
            ∃ npc, lookupAL new.urls id = some npc ∧ npc ≠ opc) := by
      intro id
      rw [hEq]
      simp only [List.mem_filterMap]
      constructor
      · rintro ⟨⟨k, opc⟩, hmem, hf⟩
        dsimp only at hf
        rcases hl : lookupAL new.urls k with _ | npc
        · rw [hl] at hf
          injection hf with hf
          subst hf
          exact ⟨opc, (lookupAL_eq_some_iff hold _ _).mpr hmem, Or.inl hl⟩
        · rw [hl] at hf
          dsimp only at hf
          by_cases hne : npc ≠ opc
          · rw [if_pos hne] at hf
            injection hf with hf
            subst hf
            exact ⟨opc, (lookupAL_eq_some_iff hold _ _).mpr hmem,
              Or.inr ⟨npc, hl, hne⟩⟩
          · rw [if_neg hne] at hf
            cases hf
      · rintro ⟨opc, holdl, hc⟩
        refine ⟨(id, opc), (lookupAL_eq_some_iff hold _ _).mp holdl, ?_⟩
        rcases hc with hc | ⟨npc, hnewl, hne⟩
        · simp [hc]
        · simp [hnewl, hne]
    have hadd : ∀ info, info ∈ (diffConfigs old new).2 ↔
        ∃ id npc, lookupAL new.urls id = some npc ∧
          info = cachePollInfoOf new id npc ∧
          (lookupAL old.urls id = none ∨
            ∃ opc, lookupAL old.urls id = some opc ∧ npc ≠ opc) := by
      intro info
      rw [hEq]
      simp only [List.mem_append, List.mem_filterMap]
      constructor
      · rintro (⟨⟨k, opc⟩, hmem, hf⟩ | ⟨⟨k, npc⟩, hmem, hf⟩)
        · dsimp only at hf
          rcases hl : lookupAL new.urls k with _ | npc
          · rw [hl] at hf
            cases hf
          · rw [hl] at hf
            dsimp only at hf
            by_cases hne : npc ≠ opc
            · rw [if_pos hne] at hf
              injection hf with hf
              exact ⟨k, npc, hl, hf.symm,
                Or.inr ⟨opc, (lookupAL_eq_some_iff hold _ _).mpr hmem, hne⟩⟩
            · rw [if_neg hne] at hf
              cases hf
        · dsimp only at hf
          rcases hl : lookupAL old.urls k with _ | opc
          · rw [hl] at hf
            dsimp only at hf
            injection hf with hf
            exact ⟨k, npc, (lookupAL_eq_some_iff hnew _ _).mpr hmem, hf.symm, Or.inl hl⟩
          · rw [hl] at hf
            cases hf
      · rintro ⟨k, npc, hnewl, hinfo, hc⟩
        rcases hc with hc | ⟨opc, holdl, hne⟩
        · refine Or.inr ⟨(k, npc), (lookupAL_eq_some_iff hnew _ _).mp hnewl, ?_⟩
          simp [hc, hinfo]
        · refine Or.inl ⟨(k, opc), (lookupAL_eq_some_iff hold _ _).mp holdl, ?_⟩
          simp [hnewl, hne, hinfo]
    refine ⟨hdel, hadd, ?_⟩
    intro id pc hol hnl
    constructor
    · intro hmem
      obtain ⟨opc, holdl, hc⟩ := (hdel id).mp hmem
      rw [hol] at holdl
      injection holdl with holdl
      subst holdl
      rcases hc with hc | ⟨npc, hnewl, hne⟩
      · rw [hnl] at hc
        cases hc
      · rw [hnl] at hnewl
        injection hnewl with h
        exact hne h.symm
    · intro info hmem heq
      obtain ⟨k, npc, hnewl, hinfo, hc⟩ := (hadd info).mp hmem
      have hk : info.id = k := by simp [hinfo, cachePollInfoOf]
      have hkid : k = id := by rw [← hk, heq]
      subst hkid
      rw [hnl] at hnewl
      injection hnewl with hnpc
      rcases hc with hc | ⟨opc, holdl, hne⟩
      · rw [hol] at hc
        cases hc
      · rw [hol] at holdl
        injection holdl with hopc
        exact hne (by rw [← hnpc, ← hopc])
  · intro a b
    cases a
    cases b
    simp only [PollConfig.mk.injEq]

/-- Closed witness for the C3 theorem (a global interval change). -/
theorem diffConfigs_spec_witness :
    diffConfigs
      ⟨[(strOf "edge",
          ⟨strOf "http://edge/_astats", [], strOf "edge", 4000, strOf "astats",
            strOf "http"⟩)], 1, false, PollingProtocol.both⟩
      ⟨[(strOf "edge",
          ⟨strOf "http://edge/_astats", [], strOf "edge", 4000, strOf "astats",
            strOf "http"⟩)], 2, false, PollingProtocol.both⟩ =
      ([strOf "edge"],
        [cachePollInfoOf
          ⟨[(strOf "edge",
              ⟨strOf "http://edge/_astats", [], strOf "edge", 4000, strOf "astats",
                strOf "http"⟩)], 2, false, PollingProtocol.both⟩
          (strOf "edge")
          ⟨strOf "http://edge/_astats", [], strOf "edge", 4000, strOf "astats",
            strOf "http"⟩]) :=
  (diffConfigs_spec _ _ (by decide) (by decide)).1 (Or.inl (by decide))

set_option maxRecDepth 1000000 in
/-- C6: `readHostStatus` parses the two S2 lines into a `Parents` table
mapping `cdn-cache-01` to `{ACTIVE:true, LOCAL:true, MANUAL:false}` with
overall status `DOWN` and `cdn-cache-02` to all-true with overall status
`UP`, and the overall status of a parent is `UP` iff all three reason
bits are true. -/
theorem readHostStatus_s2_parse :
    readHostStatus (strOf "active") emptyParents [s2line1, s2line2]
        (strOf "cdn-cache-01") =
      some ⟨strOf "cdn-cache-01.example", true, true, false, 0, 0, 0⟩ ∧
    readHostStatus (strOf "active") emptyParents [s2line1, s2line2]
        (strOf "cdn-cache-02") =
      some ⟨strOf "cdn-cache-02.example", true, true, true, 0, 0, 0⟩ ∧
    ParentStatus.status ⟨strOf "cdn-cache-01.example", true, true, false, 0, 0, 0⟩ =
      strOf "DOWN" ∧
    ParentStatus.status ⟨strOf "cdn-cache-02.example", true, true, true, 0, 0, 0⟩ =
      strOf "UP" ∧
    (∀ p : ParentStatus, p.status = strOf "UP" ↔
      (p.activeReason = true ∧ p.localReason = true ∧ p.manualReason = true)) := by
  refine ⟨by decide, by decide, by decide, by decide, ?_⟩
  intro p
  obtain ⟨f, a, l, m, lt, u, mk⟩ := p
  cases a <;> cases l <;> cases m <;> simp [ParentStatus.status] <;> decide

theorem hostStatusUpdate_preserves (rc : Str) (parents : ParentsMap)
    (pstat : ParentStatus) (k : Str) (h : parents k ≠ none) :
    hostStatusUpdate rc parents pstat k ≠ none := by
  unfold hostStatusUpdate
  rcases hp : parents (parseFqdn pstat.fqdn) with _ | pv
  · dsimp only
    by_cases hk : k = parseFqdn pstat.fqdn
    · subst hk
      rw [ParentsMap.insert_self]
      simp
    · rw [ParentsMap.insert_ne _ _ _ _ hk]
      exact h
  · dsimp only
    split_ifs
    · by_cases hk : k = parseFqdn pstat.fqdn
      · subst hk
        rw [ParentsMap.insert_self]
        simp
      · rw [ParentsMap.insert_ne _ _ _ _ hk]
        exact h
    · exact h

theorem readHostStatusLine_preserves (rc : Str) (st : Bool × Bool × Bool)
    (parents : ParentsMap) (line : Str) (k : Str) (h : parents k ≠ none) :
    (readHostStatusLine rc st parents line).2 k ≠ none := by
  unfold readHostStatusLine
  dsimp only
  by_cases hf : (goSplit (goTrimSpace line) (strOf " ")).length = 2
  · rw [if_pos hf]
    exact hostStatusUpdate_preserves rc parents _ k h
  · rw [if_neg hf]
    exact h

/-- C10: `readHostStatus` preserves hysteresis state: an entry whose
availability under the configured reason code is unchanged is left
untouched; on a change the freshly parsed reason bits replace the old
ones but `LastTmPoll` and both poll counters are carried over; and the
scan only adds map entries, never removes one. -/
theorem readHostStatus_hysteresis :
    (∀ (rc : Str) (parents : ParentsMap) (pstat : ParentStatus) (pv : ParentStatus),
      parents (parseFqdn pstat.fqdn) = some pv →
      pv.available rc = pstat.available rc →
      hostStatusUpdate rc parents pstat = parents) ∧
    (∀ (rc : Str) (parents : ParentsMap) (pstat : ParentStatus) (pv : ParentStatus),
      parents (parseFqdn pstat.fqdn) = some pv →
      pv.available rc ≠ pstat.available rc →
      hostStatusUpdate rc parents pstat (parseFqdn pstat.fqdn) =
        some { pstat with
          lastTmPoll := pv.lastTmPoll
          unavailablePollCount := pv.unavailablePollCount
          markUpPollCount := pv.markUpPollCount }) ∧
    (∀ (rc : Str) (parents : ParentsMap) (lines : List Str) (k : Str),
      parents k ≠ none → readHostStatus rc parents lines k ≠ none) := by
  refine ⟨?_, ?_, ?_⟩
  · intro rc parents pstat pv hp hav
    unfold hostStatusUpdate
    dsimp only
    rw [hp]
    simp [hav]
  · intro rc parents pstat pv hp hav
    unfold hostStatusUpdate
    try dsimp only
    rw [hp]
    try dsimp only
    simp only [if_pos hav]
    rw [ParentsMap.insert_self]
  · intro rc parents lines
    unfold readHostStatus
    suffices h : ∀ (acc : (Bool × Bool × Bool) × ParentsMap) (k : Str),
        acc.2 k ≠ none →
        (lines.foldl (fun acc line => readHostStatusLine rc acc.1 acc.2 line) acc).2 k ≠
          none by
      intro k hk
      exact h ((false, false, false), parents) k hk
    induction lines with
    | nil => intro acc k hk; exact hk
    | cons line rest ih =>
      intro acc k hk
      simp only [List.foldl_cons]
      exact ih _ k (readHostStatusLine_preserves rc acc.1 acc.2 line k hk)

/-- Closed witness for the C10 theorem. -/
theorem readHostStatus_hysteresis_witness :
    hostStatusUpdate (strOf "active")
      (fun k => if k = strOf "p1" then
        some ⟨strOf "p1.example", true, true, true, 7, 2, 1⟩ else none)
      ⟨strOf "p1.example", false, true, true, 0, 0, 0⟩
      (parseFqdn (strOf "p1.example")) =
      some ⟨strOf "p1.example", false, true, true, 7, 2, 1⟩ :=
  readHostStatus_hysteresis.2.1 (strOf "active")
    (fun k => if k = strOf "p1" then
      some ⟨strOf "p1.example", true, true, true, 7, 2, 1⟩ else none)
    ⟨strOf "p1.example", false, true, true, 0, 0, 0⟩
    ⟨strOf "p1.example", true, true, true, 7, 2, 1⟩
    (by decide) (by decide)

theorem available_set_lastTmPoll (pv : ParentStatus) (now : Int) (rc : Str) :
    ParentStatus.available { pv with lastTmPoll := now } rc = pv.available rc := rfl

theorem markParent_notFound (cfg : HealthClientCfg) (parents : ParentsMap)
    (fqdn : Str) (available ctlOk : Bool)
    (hp : parents (parseFqdn fqdn) = none) :
    markParent cfg parents fqdn available ctlOk = ⟨parents, none, false⟩ := by
  unfold markParent
  dsimp only
  rw [hp]

theorem markParent_down_below (cfg : HealthClientCfg) (parents : ParentsMap)
    (fqdn : Str) (pv : ParentStatus) (ctlOk : Bool)
    (hp : parents (parseFqdn fqdn) = some pv)
    (hlt : pv.unavailablePollCount + 1 < cfg.unavailablePollThreshold) :
    markParent cfg parents fqdn false ctlOk =
      ⟨parents.insert (parseFqdn fqdn)
        { pv with
          activeReason := if cfg.reasonCode = strOf "active" then true else pv.activeReason
          localReason := if cfg.reasonCode = strOf "local" then true else pv.localReason
          unavailablePollCount := pv.unavailablePollCount + 1 },
        none, false⟩ := by
  unfold markParent
  dsimp only
  rw [hp]
  dsimp only
  rw [if_pos hlt]
  rfl

theorem markParent_down_fire (cfg : HealthClientCfg) (parents : ParentsMap)
    (fqdn : Str) (pv : ParentStatus)
    (hp : parents (parseFqdn fqdn) = some pv)
    (hge : ¬(pv.unavailablePollCount + 1 < cfg.unavailablePollThreshold)) :
    markParent cfg parents fqdn false true =
      ⟨parents.insert (parseFqdn fqdn)
        { pv with
          activeReason := if cfg.reasonCode = strOf "active" then false else pv.activeReason
          localReason := if cfg.reasonCode = strOf "local" then false else pv.localReason
          unavailablePollCount := 0
          markUpPollCount := 0 },
        some (CtlMark.down fqdn), false⟩ := by
  unfold markParent
  dsimp only
  rw [hp]
  dsimp only
  rw [if_neg hge]
  rfl

theorem markParent_down_fail (cfg : HealthClientCfg) (parents : ParentsMap)
    (fqdn : Str) (pv : ParentStatus)
    (hp : parents (parseFqdn fqdn) = some pv)
    (hge : ¬(pv.unavailablePollCount + 1 < cfg.unavailablePollThreshold)) :
    markParent cfg parents fqdn false false =
      ⟨parents, some (CtlMark.down fqdn), true⟩ := by
  unfold markParent
  dsimp only
  rw [hp]
  dsimp only
  rw [if_neg hge]
  rfl

theorem markParent_up_below (cfg : HealthClientCfg) (parents : ParentsMap)
    (fqdn : Str) (pv : ParentStatus) (ctlOk : Bool)
    (hp : parents (parseFqdn fqdn) = some pv)
    (hlt : pv.markUpPollCount + 1 < cfg.markUpPollThreshold) :
    markParent cfg parents fqdn true ctlOk =
      ⟨parents.insert (parseFqdn fqdn)
        { pv with
          activeReason := if cfg.reasonCode = strOf "active" then false else pv.activeReason
          localReason := if cfg.reasonCode = strOf "local" then false else pv.localReason
          markUpPollCount := pv.markUpPollCount + 1 },
        none, false⟩ := by
  unfold markParent
  dsimp only
  rw [hp]
  dsimp only
  rw [if_pos hlt]
  rfl

theorem markParent_up_fire (cfg : HealthClientCfg) (parents : ParentsMap)
    (fqdn : Str) (pv : ParentStatus)
    (hp : parents (parseFqdn fqdn) = some pv)
    (hge : ¬(pv.markUpPollCount + 1 < cfg.markUpPollThreshold)) :
    markParent cfg parents fqdn true true =
      ⟨parents.insert (parseFqdn fqdn)
        { pv with
          activeReason := if cfg.reasonCode = strOf "active" then true else pv.activeReason
          localReason := if cfg.reasonCode = strOf "local" then true else pv.localReason
          unavailablePollCount := 0
          markUpPollCount := 0 },
        some (CtlMark.up fqdn), false⟩ := by
  unfold markParent
  dsimp only
  rw [hp]
  dsimp only
  rw [if_neg hge]
  rfl

theorem markParent_up_fail (cfg : HealthClientCfg) (parents : ParentsMap)
    (fqdn : Str) (pv : ParentStatus)
    (hp : parents (parseFqdn fqdn) = some pv)
    (hge : ¬(pv.markUpPollCount + 1 < cfg.markUpPollThreshold)) :
    markParent cfg parents fqdn true false =
      ⟨parents, some (CtlMark.up fqdn), true⟩ := by
  unfold markParent
  dsimp only
  rw [hp]
  dsimp only
  rw [if_neg hge]
  rfl

theorem pollParentStep_spec (cfg : HealthClientCfg) (parents : ParentsMap)
    (hostName : Str) (pv : ParentStatus) (tm : Bool) (now : Int) (ctlOk : Bool)
    (hp : parents hostName = some pv) (hf : parseFqdn pv.fqdn = hostName)
    (hc0 : pv.available cfg.reasonCode = false → pv.unavailablePollCount = 0) :
    ∃ pv', (pollParentStep cfg parents hostName tm now ctlOk).1 hostName = some pv' ∧
      pv'.fqdn = pv.fqdn ∧
      (tm = true → pv'.unavailablePollCount = 0) ∧
      (tm = false → pv'.unavailablePollCount ≤ pv.unavailablePollCount + 1) ∧
      (pv'.available cfg.reasonCode = false → pv'.unavailablePollCount = 0) ∧
      (∀ f, (pollParentStep cfg parents hostName tm now ctlOk).2 = some (CtlMark.down f) →
        tm = false ∧ cfg.unavailablePollThreshold ≤ pv.unavailablePollCount + 1) := by
  have hp1 : (ParentsMap.insert parents hostName { pv with lastTmPoll := now })
      (parseFqdn ({ pv with lastTmPoll := now } : ParentStatus).fqdn) =
      some { pv with lastTmPoll := now } := by
    show (ParentsMap.insert parents hostName _) (parseFqdn pv.fqdn) = _
    rw [hf, ParentsMap.insert_self]
  by_cases hav : pv.available cfg.reasonCode = tm
  · -- monitor agrees with the selected reason bit: markParent is not called
    by_cases hclr : pv.available cfg.reasonCode = true ∧ tm = true ∧
        pv.unavailablePollCount > 0
    · have hstep : pollParentStep cfg parents hostName tm now ctlOk =
          ((ParentsMap.insert parents hostName { pv with lastTmPoll := now }).insert
            hostName { pv with lastTmPoll := now, unavailablePollCount := 0 },
            none) := by
        unfold pollParentStep
        dsimp only
        rw [hp]
        dsimp only
        simp only [available_set_lastTmPoll]
        rw [if_neg (not_not_intro hav), if_pos hclr]
      rw [hstep]
      exact ⟨{ pv with lastTmPoll := now, unavailablePollCount := 0 },
        ParentsMap.insert_self _ _ _, rfl, (fun _ => rfl), (fun _ => Nat.zero_le _),
        (fun _ => rfl), (fun f hfeq => by cases hfeq)⟩
    · have hstep : pollParentStep cfg parents hostName tm now ctlOk =
          (ParentsMap.insert parents hostName { pv with lastTmPoll := now }, none) := by
        unfold pollParentStep
        dsimp only
        rw [hp]
        dsimp only
        simp only [available_set_lastTmPoll]
        rw [if_neg (not_not_intro hav), if_neg hclr]
      rw [hstep]
      refine ⟨{ pv with lastTmPoll := now }, ParentsMap.insert_self _ _ _, rfl,
        ?_, (fun _ => Nat.le_succ _), ?_, (fun f hfeq => by cases hfeq)⟩
      · -- agreement with tm = true: the count was already 0
        intro htm
        subst htm
        have hng : ¬(pv.unavailablePollCount > 0) := fun hgt => hclr ⟨hav, rfl, hgt⟩
        show pv.unavailablePollCount = 0
        omega
      · intro hfalse
        exact hc0 hfalse
  · -- monitor disagrees with the selected reason bit
    cases tm with
    | false =>
      -- monitor says unavailable; the selected bit is currently true
      have hup : pv.available cfg.reasonCode = true := by
        cases h : pv.available cfg.reasonCode
        · exact absurd h hav
        · rfl
      have hclr : ¬(pv.available cfg.reasonCode = true ∧ false = true ∧
          pv.unavailablePollCount > 0) := fun hc => by cases hc.2.1
      by_cases hd : cfg.enableActiveMarkdowns = false
      · -- active markdowns disabled: no markParent call
        have hdis : (!cfg.enableActiveMarkdowns) = true ∧ (!false) = true :=
          ⟨by simp [hd], rfl⟩
        have hstep : pollParentStep cfg parents hostName false now ctlOk =
            (ParentsMap.insert parents hostName { pv with lastTmPoll := now }, none) := by
          unfold pollParentStep
          dsimp only
          rw [hp]
          dsimp only
          simp only [available_set_lastTmPoll]
          rw [if_pos hav, if_pos hdis, if_neg hclr]
        rw [hstep]
        refine ⟨{ pv with lastTmPoll := now }, ParentsMap.insert_self _ _ _, rfl,
          (fun h => by cases h), (fun _ => Nat.le_succ _), ?_,
          (fun f hfeq => by cases hfeq)⟩
        intro hfalse
        rw [available_set_lastTmPoll, hup] at hfalse
        cases hfalse
      · have hd' : cfg.enableActiveMarkdowns = true := by
          cases h : cfg.enableActiveMarkdowns
          · exact absurd h hd
          · rfl
        have hdis : ¬((!cfg.enableActiveMarkdowns) = true ∧ (!false) = true) :=
          fun hc => by
            rw [hd'] at hc
            exact absurd hc.1 (by simp)
        by_cases hth : pv.unavailablePollCount + 1 < cfg.unavailablePollThreshold
        · -- below the unavailable threshold: count bumped, no CLI call
          have hstep : pollParentStep cfg parents hostName false now ctlOk =
              ((ParentsMap.insert parents hostName { pv with lastTmPoll := now }).insert
                hostName
                { pv with
                  lastTmPoll := now
                  activeReason :=
                    if cfg.reasonCode = strOf "active" then true else pv.activeReason
                  localReason :=
                    if cfg.reasonCode = strOf "local" then true else pv.localReason
                  unavailablePollCount := pv.unavailablePollCount + 1 },
                none) := by
            unfold pollParentStep
            dsimp only
            rw [hp]
            dsimp only
            simp only [available_set_lastTmPoll]
            rw [if_pos hav, if_neg hdis,
              markParent_down_below cfg _ _ _ ctlOk hp1 hth, if_neg hclr]
            try dsimp only
            try rw [hf]
          rw [hstep]
          refine ⟨_, ParentsMap.insert_self _ _ _, rfl, (fun h => by cases h),
            (fun _ => Nat.le_refl _), ?_, (fun f hfeq => by cases hfeq)⟩
          -- the updated record cannot be unavailable under the selected reason code
          intro hfalse
          by_cases h1 : cfg.reasonCode = strOf "active"
          · rw [ParentStatus.available, if_pos h1] at hfalse
            simp [h1] at hfalse
          · by_cases h2 : cfg.reasonCode = strOf "local"
            · rw [ParentStatus.available, if_neg h1, if_pos h2] at hfalse
              simp [h1, h2] at hfalse
            · by_cases h3 : cfg.reasonCode = strOf "manual"
              · rw [ParentStatus.available, if_neg h1, if_neg h2, if_pos h3] at hfalse
                rw [ParentStatus.available, if_neg h1, if_neg h2, if_pos h3] at hup
                dsimp only at hfalse
                rw [hup] at hfalse
                cases hfalse
              · rw [ParentStatus.available, if_neg h1, if_neg h2, if_neg h3] at hup
                cases hup
        · cases ctlOk with
          | true =>
            -- threshold reached and the CLI call succeeds: marked down, counters reset
            have hstep : pollParentStep cfg parents hostName false now true =
                ((ParentsMap.insert parents hostName
                    { pv with lastTmPoll := now }).insert hostName
                  { pv with
                    lastTmPoll := now
                    activeReason :=
                      if cfg.reasonCode = strOf "active" then false else pv.activeReason
                    localReason :=
                      if cfg.reasonCode = strOf "local" then false else pv.localReason
                    unavailablePollCount := 0
                    markUpPollCount := 0 },
                  some (CtlMark.down pv.fqdn)) := by
              unfold pollParentStep
              dsimp only
              rw [hp]
              dsimp only
              simp only [available_set_lastTmPoll]
              rw [if_pos hav, if_neg hdis,
                markParent_down_fire cfg _ _ _ hp1 hth, if_neg hclr]
              try dsimp only
              try rw [hf]
            rw [hstep]
            exact ⟨_, ParentsMap.insert_self _ _ _, rfl, (fun h => by cases h),
              (fun _ => Nat.zero_le _), (fun _ => rfl),
              (fun f _ => ⟨rfl, by omega⟩)⟩
          | false =>
            -- threshold reached but the CLI call fails: table untouched
            have hstep : pollParentStep cfg parents hostName false now false =
                (ParentsMap.insert parents hostName { pv with lastTmPoll := now },
                  some (CtlMark.down pv.fqdn)) := by
              unfold pollParentStep
              dsimp only
              rw [hp]
              dsimp only
              simp only [available_set_lastTmPoll]
              rw [if_pos hav, if_neg hdis,
                markParent_down_fail cfg _ _ _ hp1 hth, if_neg hclr]
              try dsimp only
              try rw [hf]
            rw [hstep]
            refine ⟨{ pv with lastTmPoll := now }, ParentsMap.insert_self _ _ _, rfl,
              (fun h => by cases h), (fun _ => Nat.le_succ _), ?_,
              (fun f _ => ⟨rfl, by omega⟩)⟩
            intro hfalse
            rw [available_set_lastTmPoll, hup] at hfalse
            cases hfalse
    | true =>
      -- monitor says available; the selected bit is currently false
      have hdown : pv.available cfg.reasonCode = false := by
        cases h : pv.available cfg.reasonCode
        · rfl
        · exact absurd h hav
      have hcz : pv.unavailablePollCount = 0 := hc0 hdown
      have hdis : ¬((!cfg.enableActiveMarkdowns) = true ∧ (!true) = true) :=
        fun hc => by exact absurd hc.2 (by simp)
      have hclr : ¬(pv.available cfg.reasonCode = true ∧ True ∧
          pv.unavailablePollCount > 0) := fun hc => hav hc.1
      by_cases hth : pv.markUpPollCount + 1 < cfg.markUpPollThreshold
      · have hstep : pollParentStep cfg parents hostName true now ctlOk =
            ((ParentsMap.insert parents hostName { pv with lastTmPoll := now }).insert
              hostName
              { pv with
                lastTmPoll := now
                activeReason :=
                  if cfg.reasonCode = strOf "active" then false else pv.activeReason
                localReason :=
                  if cfg.reasonCode = strOf "local" then false else pv.localReason
                markUpPollCount := pv.markUpPollCount + 1 },
              none) := by
          unfold pollParentStep
          dsimp only
          rw [hp]
          dsimp only
          simp only [available_set_lastTmPoll]
          rw [if_pos hav, if_neg hdis,
            markParent_up_below cfg _ _ _ ctlOk hp1 hth, if_neg hclr]
          try dsimp only
          try rw [hf]
        rw [hstep]
        exact ⟨_, ParentsMap.insert_self _ _ _, rfl, (fun _ => hcz),
          (fun h => by cases h), (fun _ => hcz), (fun f hfeq => by cases hfeq)⟩
      · cases ctlOk with
        | true =>
          have hstep : pollParentStep cfg parents hostName true now true =
              ((ParentsMap.insert parents hostName
                  { pv with lastTmPoll := now }).insert hostName
                { pv with
                  lastTmPoll := now
                  activeReason :=
                    if cfg.reasonCode = strOf "active" then true else pv.activeReason
                  localReason :=
                    if cfg.reasonCode = strOf "local" then true else pv.localReason
                  unavailablePollCount := 0
                  markUpPollCount := 0 },
                some (CtlMark.up pv.fqdn)) := by
            unfold pollParentStep
            dsimp only
            rw [hp]
            dsimp only
            simp only [available_set_lastTmPoll]
            rw [if_pos hav, if_neg hdis,
              markParent_up_fire cfg _ _ _ hp1 hth, if_neg hclr]
            try dsimp only
            try rw [hf]
          rw [hstep]
          exact ⟨_, ParentsMap.insert_self _ _ _, rfl, (fun _ => rfl),
            (fun h => by cases h), (fun _ => rfl), (fun f hfeq => by cases hfeq)⟩
        | false =>
          have hstep : pollParentStep cfg parents hostName true now false =
              (ParentsMap.insert parents hostName { pv with lastTmPoll := now },
                some (CtlMark.up pv.fqdn)) := by
            unfold pollParentStep
            dsimp only
            rw [hp]
            dsimp only
            simp only [available_set_lastTmPoll]
            rw [if_pos hav, if_neg hdis,
              markParent_up_fail cfg _ _ _ hp1 hth, if_neg hclr]
            try dsimp only
            try rw [hf]
          rw [hstep]
          exact ⟨{ pv with lastTmPoll := now }, ParentsMap.insert_self _ _ _, rfl,
            (fun _ => hcz), (fun h => by cases h), (fun _ => hcz),
            (fun f hfeq => by cases hfeq)⟩

theorem maxUnavailRunAux_ge_best (L : List Bool) :
    ∀ (cur best : Nat), best ≤ maxUnavailRunAux cur best L := by
  induction L with
  | nil => intro cur best; exact Nat.le_refl _
  | cons b rest ih =>
    intro cur best
    cases b
    · calc best ≤ Nat.max best (cur + 1) := Nat.le_max_left _ _
        _ ≤ maxUnavailRunAux (cur + 1) (Nat.max best (cur + 1)) rest := ih _ _
        _ = maxUnavailRunAux cur best (false :: rest) := by
            rw [maxUnavailRunAux]
            simp
    · calc best ≤ maxUnavailRunAux 0 best rest := ih _ _
        _ = maxUnavailRunAux cur best (true :: rest) := by
            rw [maxUnavailRunAux]
            simp

theorem runPolls_no_markdown (cfg : HealthClientCfg) (hostName : Str) :
    ∀ (polls : List PollInput) (parents : ParentsMap) (pv : ParentStatus)
      (cur best : Nat),
      parents hostName = some pv → parseFqdn pv.fqdn = hostName →
      pv.unavailablePollCount ≤ cur →
      (pv.available cfg.reasonCode = false → pv.unavailablePollCount = 0) →
      maxUnavailRunAux cur best (polls.map PollInput.tmAvailable) <
        cfg.unavailablePollThreshold →
      (runPolls cfg hostName parents polls).2 = 0 := by
  intro polls
  induction polls with
  | nil => intro parents pv cur best hp hf hcur hc0 hbound; rfl
  | cons i rest ih =>
    intro parents pv cur best hp hf hcur hc0 hbound
    obtain ⟨pv', hp', hfq, htm1, htm0, hc0', hdown⟩ :=
      pollParentStep_spec cfg parents hostName pv i.tmAvailable i.now i.ctlOk hp hf hc0
    have hf' : parseFqdn pv'.fqdn = hostName := by rw [hfq]; exact hf
    rcases hps : pollParentStep cfg parents hostName i.tmAvailable i.now i.ctlOk
      with ⟨parents', ctl⟩
    rw [hps] at hp' hdown
    have hd0 : (runPolls cfg hostName parents' rest).2 = 0 := by
      cases htm : i.tmAvailable
      · -- unavailable this poll: the trailing run grows by one
        refine ih parents' pv' (cur + 1) (Nat.max best (cur + 1)) hp' hf' ?_ hc0' ?_
        · exact le_trans (htm0 htm) (by omega)
        · have : maxUnavailRunAux cur best ((i :: rest).map PollInput.tmAvailable) =
              maxUnavailRunAux (cur + 1) (Nat.max best (cur + 1))
                (rest.map PollInput.tmAvailable) := by
            rw [List.map_cons, htm, maxUnavailRunAux]
            simp
          rw [this] at hbound
          exact hbound
      · -- available this poll: the trailing run resets
        refine ih parents' pv' 0 best hp' hf' (by rw [htm1 htm]) hc0' ?_
        have : maxUnavailRunAux cur best ((i :: rest).map PollInput.tmAvailable) =
            maxUnavailRunAux 0 best (rest.map PollInput.tmAvailable) := by
          rw [List.map_cons, htm, maxUnavailRunAux]
          simp
        rw [this] at hbound
        exact hbound
    have hctl0 : (match ctl with
        | some (CtlMark.down _) => 1
        | _ => 0) = 0 := by
      cases ctl with
      | none => rfl
      | some c =>
        cases c with
        | up f => rfl
        | down f =>
          exfalso
          obtain ⟨htmf, hge⟩ := hdown f rfl
          have h1 : cfg.unavailablePollThreshold ≤ cur + 1 := by
            have := hcur
            omega
          have h2 : cur + 1 ≤
              maxUnavailRunAux cur best ((i :: rest).map PollInput.tmAvailable) := by
            rw [List.map_cons, htmf, maxUnavailRunAux]
            simp only [Bool.false_eq_true, if_false]
            calc cur + 1 ≤ Nat.max best (cur + 1) := Nat.le_max_right _ _
              _ ≤ maxUnavailRunAux (cur + 1) (Nat.max best (cur + 1))
                  (rest.map PollInput.tmAvailable) := maxUnavailRunAux_ge_best _ _ _
          omega
    rcases hr : runPolls cfg hostName parents' rest with ⟨pf, d⟩
    rw [hr] at hd0
    dsimp only at hd0
    rw [runPolls, hps]
    dsimp only
    rw [hr]
    dsimp only
    rw [hctl0, hd0]

/-- C2: `markParent` on an "unavailable" report increments
`unavailable-poll-count` and invokes the `traffic_ctl` mark-down only
when the incremented count reaches `UnavailablePollThreshold`; an
applied mark-down resets both poll counters to 0; consequently, for
threshold N, over any poll sequence whose longest block of consecutive
"unavailable" reports (with no intervening "available") is shorter than
N, no mark-down CLI invocation occurs; and an agreeing "available" poll
while the parent is up clears `unavailable-poll-count`. -/
theorem markParent_hysteresis :
    (∀ (cfg : HealthClientCfg) (parents : ParentsMap) (fqdn : Str)
        (pv : ParentStatus) (ctlOk : Bool),
      parents (parseFqdn fqdn) = some pv →
      pv.unavailablePollCount + 1 < cfg.unavailablePollThreshold →
      (markParent cfg parents fqdn false ctlOk).ctl = none ∧
      ∃ pv', (markParent cfg parents fqdn false ctlOk).parents (parseFqdn fqdn) =
          some pv' ∧
        pv'.unavailablePollCount = pv.unavailablePollCount + 1 ∧
        pv'.markUpPollCount = pv.markUpPollCount) ∧
    (∀ (cfg : HealthClientCfg) (parents : ParentsMap) (fqdn : Str)
        (pv : ParentStatus),
      parents (parseFqdn fqdn) = some pv →
      cfg.unavailablePollThreshold ≤ pv.unavailablePollCount + 1 →
      (markParent cfg parents fqdn false true).ctl = some (CtlMark.down fqdn) ∧
      ∃ pv', (markParent cfg parents fqdn false true).parents (parseFqdn fqdn) =
          some pv' ∧
        pv'.unavailablePollCount = 0 ∧ pv'.markUpPollCount = 0) ∧
    (∀ (cfg : HealthClientCfg) (hostName : Str) (parents : ParentsMap)
        (pv : ParentStatus) (polls : List PollInput),
      parents hostName = some pv → parseFqdn pv.fqdn = hostName →
      pv.unavailablePollCount = 0 →
      maxUnavailRun polls < cfg.unavailablePollThreshold →
      (runPolls cfg hostName parents polls).2 = 0) ∧
    (∀ (cfg : HealthClientCfg) (parents : ParentsMap) (hostName : Str)
        (pv : ParentStatus) (now : Int) (ctlOk : Bool),
      parents hostName = some pv → pv.available cfg.reasonCode = true →
      (pollParentStep cfg parents hostName true now ctlOk).1 hostName =
        some { pv with lastTmPoll := now, unavailablePollCount := 0 }) := by
  refine ⟨?_, ?_, ?_, ?_⟩
  · intro cfg parents fqdn pv ctlOk hp hlt
    rw [markParent_down_below cfg parents fqdn pv ctlOk hp hlt]
    exact ⟨rfl, _, ParentsMap.insert_self _ _ _, rfl, rfl⟩
  · intro cfg parents fqdn pv hp hge
    rw [markParent_down_fire cfg parents fqdn pv hp (by omega)]
    exact ⟨rfl, _, ParentsMap.insert_self _ _ _, rfl, rfl⟩
  · intro cfg hostName parents pv polls hp hf h0 hbound
    exact runPolls_no_markdown cfg hostName polls parents pv 0 0 hp hf
      (by omega) (fun _ => h0) hbound
  · intro cfg parents hostName pv now ctlOk hp hup
    by_cases hgt : pv.unavailablePollCount > 0
    · have hstep : pollParentStep cfg parents hostName true now ctlOk =
          ((ParentsMap.insert parents hostName { pv with lastTmPoll := now }).insert
            hostName { pv with lastTmPoll := now, unavailablePollCount := 0 },
            none) := by
        unfold pollParentStep
        dsimp only
        rw [hp]
        dsimp only
        simp only [available_set_lastTmPoll]
        rw [if_neg (not_not_intro hup), if_pos ⟨hup, trivial, hgt⟩]
      rw [hstep]
      exact ParentsMap.insert_self _ _ _
    · have hz : pv.unavailablePollCount = 0 := by omega
      have hstep : pollParentStep cfg parents hostName true now ctlOk =
          (ParentsMap.insert parents hostName { pv with lastTmPoll := now },
            none) := by
        unfold pollParentStep
        dsimp only
        rw [hp]
        dsimp only
        simp only [available_set_lastTmPoll]
        rw [if_neg (not_not_intro hup),
          if_neg (show ¬(pv.available cfg.reasonCode = true ∧ True ∧
            pv.unavailablePollCount > 0) from fun hc => hgt hc.2.2)]
      rw [hstep]
      rw [show ({ pv with lastTmPoll := now, unavailablePollCount := 0 } :
          ParentStatus) = { pv with lastTmPoll := now } from by
        obtain ⟨f, a, l, m, lt, u, mk⟩ := pv
        dsimp only at hz
        rw [hz]]
      exact ParentsMap.insert_self _ _ _

/-- Closed witness for the C2 theorem: threshold 3, a run of polls whose
longest unavailable block has length 2 produces no mark-down. -/
theorem markParent_hysteresis_witness :
    (runPolls ⟨strOf "active", 3, 2, true⟩ (strOf "p1")
      (fun k => if k = strOf "p1" then
        some ⟨strOf "p1.example", true, true, true, 0, 0, 0⟩ else none)
      [⟨false, 1, true⟩, ⟨false, 2, true⟩, ⟨true, 3, true⟩,
        ⟨false, 4, true⟩, ⟨false, 5, true⟩]).2 = 0 :=
  markParent_hysteresis.2.2.1 ⟨strOf "active", 3, 2, true⟩ (strOf "p1")
    (fun k => if k = strOf "p1" then
      some ⟨strOf "p1.example", true, true, true, 0, 0, 0⟩ else none)
    ⟨strOf "p1.example", true, true, true, 0, 0, 0⟩
    [⟨false, 1, true⟩, ⟨false, 2, true⟩, ⟨true, 3, true⟩,
      ⟨false, 4, true⟩, ⟨false, 5, true⟩]
    (by decide) (by decide) rfl (by decide)
